import Mathlib

/-!
Shallow embedding of the Central-Database core (`src/core/models.py` with the
guard fragments of `src/core/api.py`), and proofs of the specification claims.

The store behind the core is MongoDB accessed through pymongo; its behaviour
visible to this code (databases as named maps of named collections of
documents, `ObjectId` parsing of 24-character hex strings, `$set` updates that
refuse to alter the immutable `_id` field, insertion rejecting a duplicated
`_id`) is modelled explicitly.  Documents are association lists from string
keys to BSON-like values, mirroring Python dicts with insertion order.
-/

namespace CentralDB

/-- BSON-like values that documents in this development hold: store-native
ObjectId values, strings, integers, booleans and null. -/
inductive BVal where
  | oid : Nat → BVal
  | str : String → BVal
  | int : Int → BVal
  | bool : Bool → BVal
  | null : BVal
deriving DecidableEq, Repr

/-- A document: an ordered association list of fields, as a Python dict. -/
abbrev Doc := List (String × BVal)

/-- Lookup in an association list (first binding wins, as in a dict). -/
def alookup {α : Type} : List (String × α) → String → Option α
  | [], _ => none
  | (k', v) :: rest, k => if k' = k then some v else alookup rest k

/-- Dict-style update: replace the binding of `k` in place if present,
append it otherwise. -/
def aupdate {α : Type} : List (String × α) → String → α → List (String × α)
  | [], k, v => [(k, v)]
  | (k', v') :: rest, k, v =>
    if k' = k then (k', v) :: rest else (k', v') :: aupdate rest k v

/-- Dict-style removal of a key. -/
def aremove {α : Type} (l : List (String × α)) (k : String) : List (String × α) :=
  l.filter (fun p => !(p.1 == k))

/-- Field lookup in a document (`d[k]` read). -/
def docGet (d : Doc) (k : String) : Option BVal := alookup d k

/-- Field assignment in a document (`d[k] = v`). -/
def docSet (d : Doc) (k : String) (v : BVal) : Doc := aupdate d k v

@[simp] theorem alookup_nil {α : Type} (k : String) :
    alookup ([] : List (String × α)) k = none := rfl

@[simp] theorem alookup_cons {α : Type} (k' k : String) (v : α) (rest : List (String × α)) :
    alookup ((k', v) :: rest) k = if k' = k then some v else alookup rest k := rfl

theorem alookup_aupdate_self {α : Type} (l : List (String × α)) (k : String) (v : α) :
    alookup (aupdate l k v) k = some v := by
  induction l with
  | nil => simp [aupdate]
  | cons p rest ih =>
    obtain ⟨k', v'⟩ := p
    by_cases h : k' = k <;> simp [aupdate, h, ih]

theorem alookup_aupdate_other {α : Type} (l : List (String × α)) (k k₀ : String) (v : α)
    (hne : k ≠ k₀) : alookup (aupdate l k v) k₀ = alookup l k₀ := by
  induction l with
  | nil => simp [aupdate, hne]
  | cons p rest ih =>
    obtain ⟨k', v'⟩ := p
    by_cases h : k' = k
    · subst h; simp [aupdate, hne]
    · simp [aupdate, h, ih]

theorem docGet_docSet_self (d : Doc) (k : String) (v : BVal) :
    docGet (docSet d k v) k = some v :=
  alookup_aupdate_self d k v

theorem docGet_docSet_other (d : Doc) (k k₀ : String) (v : BVal) (hne : k ≠ k₀) :
    docGet (docSet d k v) k₀ = docGet d k₀ :=
  alookup_aupdate_other d k k₀ v hne

theorem docSet_docSet_same (d : Doc) (k : String) (v w : BVal) :
    docSet (docSet d k v) k w = docSet d k w := by
  induction d with
  | nil => simp [docSet, aupdate]
  | cons p rest ih =>
    obtain ⟨k', v'⟩ := p
    by_cases h : k' = k
    · subst h; simp [docSet, aupdate]
    · simp [docSet, aupdate, h] at ih ⊢
      exact ih

/-! ### ObjectId: 24-character hexadecimal identifiers

`bson.objectid.ObjectId(s)` accepts exactly the 24-character hex strings;
`str(oid)` renders the identifier back as 24 lowercase hex characters. -/

/-- Value of one hex character, `none` when the character is not hex. -/
def hexDigitVal (c : Char) : Option Nat :=
  if '0' ≤ c ∧ c ≤ '9' then some (c.toNat - '0'.toNat)
  else if 'a' ≤ c ∧ c ≤ 'f' then some (c.toNat - 'a'.toNat + 10)
  else if 'A' ≤ c ∧ c ≤ 'F' then some (c.toNat - 'A'.toNat + 10)
  else none

/-- Lowercase hex character of a digit value below 16. -/
def hexChar (d : Nat) : Char :=
  if d < 10 then Char.ofNat ('0'.toNat + d) else Char.ofNat ('a'.toNat + d - 10)

/-- The `w` little-endian base-16 digits of `n` (of `n % 16 ^ w`). -/
def hexDigitsLE : Nat → Nat → List Nat
  | _, 0 => []
  | n, w + 1 => n % 16 :: hexDigitsLE (n / 16) w

/-- Value of a little-endian digit list. -/
def valueLE : List Nat → Nat
  | [] => 0
  | d :: ds => d + 16 * valueLE ds

/-- Accumulating parse of a big-endian hex character list. -/
def parseHexAux : Option Nat → List Char → Option Nat
  | acc, [] => acc
  | acc, c :: cs =>
    parseHexAux
      (match acc, hexDigitVal c with
       | some a, some d => some (16 * a + d)
       | _, _ => none) cs

/-- Parse a big-endian hex character list. -/
def parseHexChars (cs : List Char) : Option Nat := parseHexAux (some 0) cs

/-- `str(ObjectId)`: the 24 lowercase hex characters of the identifier. -/
def oidToString (n : Nat) : String :=
  String.mk (((hexDigitsLE n 24).reverse).map hexChar)

/-- `ObjectId(s)` as a total function: `some` identifier on a 24-character
hex string, `none` where the constructor raises `InvalidId`. -/
def parseObjectId (s : String) : Option Nat :=
  if s.length = 24 then parseHexChars s.data else none

theorem hexDigitsLE_length (n w : Nat) : (hexDigitsLE n w).length = w := by
  induction w generalizing n with
  | zero => rfl
  | succ w ih => simp [hexDigitsLE, ih]

theorem hexDigitsLE_lt (n w : Nat) : ∀ d ∈ hexDigitsLE n w, d < 16 := by
  induction w generalizing n with
  | zero => intro d h; cases h
  | succ w ih =>
    intro d h
    simp only [hexDigitsLE, List.mem_cons] at h
    rcases h with h | h
    · subst h; exact Nat.mod_lt _ (by norm_num)
    · exact ih (n / 16) d h

theorem valueLE_hexDigitsLE (n w : Nat) : valueLE (hexDigitsLE n w) = n % 16 ^ w := by
  induction w generalizing n with
  | zero => simp [hexDigitsLE, valueLE, Nat.mod_one]
  | succ w ih =>
    simp only [hexDigitsLE, valueLE, ih]
    have h1 : n % (16 * 16 ^ w) / 16 = n / 16 % 16 ^ w :=
      Nat.mod_mul_right_div_self n 16 (16 ^ w)
    have h2 : n % (16 * 16 ^ w) % 16 = n % 16 :=
      Nat.mod_mod_of_dvd n ⟨16 ^ w, rfl⟩
    have h3 : 16 * (n % (16 * 16 ^ w) / 16) + n % (16 * 16 ^ w) % 16 = n % (16 * 16 ^ w) :=
      Nat.div_add_mod _ 16
    have hp : (16 : Nat) ^ (w + 1) = 16 * 16 ^ w := by ring
    rw [hp]
    omega

theorem hexDigitVal_hexChar : ∀ d, d < 16 → hexDigitVal (hexChar d) = some d := by
  decide

theorem parseHexAux_map (bs : List Nat) (hlt : ∀ d ∈ bs, d < 16) :
    ∀ a, parseHexAux (some a) (bs.map hexChar) =
      some (bs.foldl (fun x d => 16 * x + d) a) := by
  induction bs with
  | nil => intro a; rfl
  | cons d ds ih =>
    intro a
    have hd : hexDigitVal (hexChar d) = some d :=
      hexDigitVal_hexChar d (hlt d (List.mem_cons_self d ds))
    have hds : ∀ x ∈ ds, x < 16 := fun x hx => hlt x (List.mem_cons_of_mem d hx)
    simp only [List.map_cons, parseHexAux, hd, List.foldl_cons]
    exact ih hds (16 * a + d)

theorem foldl_reverse_valueLE (le : List Nat) :
    ∀ a, (le.reverse).foldl (fun x d => 16 * x + d) a = a * 16 ^ le.length + valueLE le := by
  induction le with
  | nil => intro a; simp [valueLE]
  | cons d ds ih =>
    intro a
    simp only [List.reverse_cons, List.foldl_append, List.foldl_cons, List.foldl_nil,
      ih a, valueLE, List.length_cons]
    ring

theorem parseObjectId_oidToString (n : Nat) (h : n < 16 ^ 24) :
    parseObjectId (oidToString n) = some n := by
  have hlen : (oidToString n).length = 24 := by
    simp [oidToString, String.length, hexDigitsLE_length]
  have hdata : (oidToString n).data = ((hexDigitsLE n 24).reverse).map hexChar := rfl
  have hlt : ∀ d ∈ (hexDigitsLE n 24).reverse, d < 16 := by
    intro d hd
    exact hexDigitsLE_lt n 24 d (List.mem_reverse.mp hd)
  have hparse : parseHexChars (((hexDigitsLE n 24).reverse).map hexChar) = some n := by
    rw [parseHexChars, parseHexAux_map _ hlt 0, foldl_reverse_valueLE, valueLE_hexDigitsLE]
    have h' : n < 79228162514264337593543950336 := by
      calc n < 16 ^ 24 := h
        _ = 79228162514264337593543950336 := by norm_num
    simp [Nat.mod_eq_of_lt h']
  rw [parseObjectId, hlen, hdata]
  simpa using hparse

/-! ### The document store

`client` in `models.py` is a handle onto the whole cluster; we model the
cluster state as an association list from database names to databases, a
database being an association list from collection names to document lists.
A database exists exactly when it appears in the list (Mongo materialises a
database when its first collection is created).  `nextOid` is the source of
freshly generated `ObjectId`s. -/

instance : DecidableEq (List (String × List Doc)) := inferInstance

structure DBState where
  dbs : List (String × List (String × List Doc))
  nextOid : Nat
deriving DecidableEq, Repr

def SECURE_DB_NAME : String := "secure_auth"

def SECURE_USERS_COLL : String := "users"

/-- `db.list_collection_names()`: names of the collections of `db`, `[]`
when the database does not exist. -/
def list_collection_names (st : DBState) (db : String) : List String :=
  ((alookup st.dbs db).getD []).map Prod.fst

/-- Names of the existing databases. -/
def database_names (st : DBState) : List String :=
  st.dbs.map Prod.fst

/-- The documents of a collection (`[]` when absent). -/
def collDocs (st : DBState) (db coll : String) : List Doc :=
  (alookup ((alookup st.dbs db).getD []) coll).getD []

/-- Write back the document list of one collection, materialising the
database and the collection as Mongo does. -/
def setCollDocs (st : DBState) (db coll : String) (ds : List Doc) : DBState :=
  { st with dbs := aupdate st.dbs db (aupdate ((alookup st.dbs db).getD []) coll ds) }

/-- `create_collection` of `models.py`: refuse when the collection is
already listed, otherwise create it (creating the database implicitly). -/
def create_collection (st : DBState) (db coll : String) : Bool × DBState :=
  if coll ∈ list_collection_names st db then (false, st)
  else (true, { st with dbs := aupdate st.dbs db (aupdate ((alookup st.dbs db).getD []) coll []) })

/-- `delete_collection` of `models.py`: false when the collection is not
listed, otherwise drop it.  Note: no guard on `secure_auth.users` here. -/
def delete_collection (st : DBState) (db coll : String) : Bool × DBState :=
  if coll ∈ list_collection_names st db then
    (true, { st with dbs := aupdate st.dbs db (aremove ((alookup st.dbs db).getD []) coll) })
  else (false, st)

/-- The reserved infrastructure database names of `delete_database`. -/
def reservedNames : List String := ["admin", "local", "config"]

/-- `delete_database` of `models.py`: refuse reserved names and the secure
database, otherwise drop the database. -/
def delete_database (st : DBState) (db : String) : Bool × DBState :=
  if db ∈ reservedNames then (false, st)
  else if db = SECURE_DB_NAME then (false, st)
  else (true, { st with dbs := aremove st.dbs db })

/-- The guard of the routing layer (`delete_collection_view` in `api.py`):
refuse `secure_auth.users` before calling the core operation. -/
def delete_collection_view (st : DBState) (db coll : String) : Bool × DBState :=
  if db = SECURE_DB_NAME ∧ coll = "users" then (false, st)
  else delete_collection st db coll

/-! ### Document operations -/

/-- `str(v)` for the BSON values of this development (Python rendering). -/
def bvalToString : BVal → String
  | .oid n => oidToString n
  | .str s => s
  | .int i => toString i
  | .bool b => if b then "True" else "False"
  | .null => "None"

/-- `find_one({"_id": oid})`: the first document whose `_id` is `oid`. -/
def find_one (docs : List Doc) (oid : Nat) : Option Doc :=
  docs.find? (fun d => decide (docGet d "_id" = some (BVal.oid oid)))

/-- The in-place `d["_id"] = str(d["_id"])` of `paginate_documents` and
`get_document` (stored documents always carry `_id`, `getD` is never hit on
documents produced by `insert_document`). -/
def renderIdField (d : Doc) : Doc :=
  docSet d "_id" (BVal.str (bvalToString ((docGet d "_id").getD BVal.null)))

structure PageResult where
  documents : List Doc
  page : Nat
  page_size : Nat
  total : Nat
  total_pages : Nat
deriving DecidableEq, Repr

/-- `paginate_documents` of `models.py`: count, skip/limit slice, string
identifiers, and the `total_pages` formula. -/
def paginate_documents (st : DBState) (db coll : String) (page page_size : Nat) : PageResult :=
  let docs := collDocs st db coll
  let total := docs.length
  let skip := (page - 1) * page_size
  { documents := ((docs.drop skip).take page_size).map renderIdField
  , page := page
  , page_size := page_size
  , total := total
  , total_pages := if total > 0 then (total + page_size - 1) / page_size else 1 }

/-- `get_document` of `models.py`: malformed id and missing document both
give `none`; a found document is returned with its `_id` rendered. -/
def get_document (st : DBState) (db coll : String) (doc_id : String) : Option Doc :=
  match parseObjectId doc_id with
  | none => none
  | some oid =>
    match find_one (collDocs st db coll) oid with
    | none => none
    | some d => some (renderIdField d)

/-- `insert_document` of `models.py` over pymongo's `insert_one`: a missing
`_id` is generated; a duplicated `_id` makes the server raise
(`Except.error`); the new identifier is returned as a string. -/
def insert_document (st : DBState) (db coll : String) (data : Doc) :
    Except Unit (String × DBState) :=
  let docs := collDocs st db coll
  match docGet data "_id" with
  | some v =>
    if docs.any (fun d => decide (docGet d "_id" = some v)) then Except.error ()
    else Except.ok (bvalToString v, setCollDocs st db coll (docs ++ [data]))
  | none =>
    let v := BVal.oid st.nextOid
    if docs.any (fun d => decide (docGet d "_id" = some v)) then Except.error ()
    else
      Except.ok (oidToString st.nextOid,
        { setCollDocs st db coll (docs ++ [docSet data "_id" v]) with nextOid := st.nextOid + 1 })

/-- `$set` of an update payload onto a document: each supplied field is
replaced or appended. -/
def applySet (d : Doc) (data : Doc) : Doc :=
  data.foldl (fun acc kv => docSet acc kv.1 kv.2) d

/-- Replace the first document whose `_id` is `oid`. -/
def replaceFirstMatch : List Doc → Nat → Doc → List Doc
  | [], _, _ => []
  | d :: rest, oid, nd =>
    if docGet d "_id" = some (BVal.oid oid) then nd :: rest
    else d :: replaceFirstMatch rest oid nd

/-- Remove the first document whose `_id` is `oid` (`delete_one`). -/
def removeFirstMatch : List Doc → Nat → List Doc
  | [], _ => []
  | d :: rest, oid =>
    if docGet d "_id" = some (BVal.oid oid) then rest
    else d :: removeFirstMatch rest oid

/-- `update_document` of `models.py` over `update_one({"_id": oid}, {"$set": data})`:
malformed id gives `false`; a payload `_id` different from the matched
document's identifier makes the server reject the update (`Except.error`,
the immutable `_id` write error of MongoDB, not caught by the function);
otherwise the first matching document receives the fields and
`modified_count > 0` is whether it actually changed. -/
def update_document (st : DBState) (db coll doc_id : String) (data : Doc) :
    Except Unit (Bool × DBState) :=
  match parseObjectId doc_id with
  | none => Except.ok (false, st)
  | some oid =>
    let docs := collDocs st db coll
    match find_one docs oid with
    | none => Except.ok (false, st)
    | some d =>
      let conflict :=
        match docGet data "_id" with
        | some v => decide (v ≠ BVal.oid oid)
        | none => false
      if conflict then Except.error ()
      else
        let d' := applySet d data
        Except.ok (decide (d' ≠ d), setCollDocs st db coll (replaceFirstMatch docs oid d'))

/-- `delete_document` of `models.py`: malformed id gives `false`;
otherwise `delete_one` and `deleted_count > 0`. -/
def delete_document (st : DBState) (db coll doc_id : String) : Bool × DBState :=
  match parseObjectId doc_id with
  | none => (false, st)
  | some oid =>
    let docs := collDocs st db coll
    if docs.any (fun d => decide (docGet d "_id" = some (BVal.oid oid))) then
      (true, setCollDocs st db coll (removeFirstMatch docs oid))
    else (false, st)

/-! ### Credential store (`secure_auth.users`)

`models.py` keeps a dedicated handle `secure_users` onto this collection;
credential documents always carry `username`, `password_hash` and `role`,
so we model them as a record.  `generate_password_hash` and
`check_password_hash` come from werkzeug; they are modelled by their
contract: verification succeeds exactly on the hashed password. -/

/-- Modelled from werkzeug: a one-way salted hash, abstracted as an
injective tagging of the password; never the identity on the password. -/
def generate_password_hash (password : String) : String :=
  "pbkdf2-sha256$" ++ password

/-- Modelled from werkzeug: `check_password_hash(h, p)` holds exactly when
`h` is the hash of `p`. -/
def check_password_hash (hash password : String) : Bool :=
  hash == generate_password_hash password

structure Cred where
  oid : Nat
  username : String
  password_hash : String
  role : String
deriving DecidableEq, Repr

structure CredState where
  users : List Cred
  nextOid : Nat
deriving DecidableEq, Repr

/-- Default of `os.getenv("ADMIN_USERNAME", "admin")`. -/
def ADMIN_USERNAME : String := "admin"

/-- Default of `os.getenv("ADMIN_PASSWORD", "admin123")`. -/
def ADMIN_PASSWORD : String := "admin123"

/-- `init_auth_collection` of `models.py`: when `count_documents({}) == 0`,
insert the default admin credential (hashed); otherwise do nothing. -/
def init_auth_collection (cs : CredState) : CredState :=
  if cs.users.length = 0 then
    { users := cs.users ++
        [{ oid := cs.nextOid
         , username := ADMIN_USERNAME
         , password_hash := generate_password_hash ADMIN_PASSWORD
         , role := "admin" }]
    , nextOid := cs.nextOid + 1 }
  else cs

/-- `verify_user` of `models.py`: `find_one({"username": username})`, false
when absent, otherwise `check_password_hash` on the stored hash. -/
def verify_user (cs : CredState) (username password : String) : Bool :=
  match cs.users.find? (fun u => u.username == username) with
  | none => false
  | some u => check_password_hash u.password_hash password

/-- Replace the first credential whose identifier is `oid`. -/
def replaceFirstCred : List Cred → Nat → Cred → List Cred
  | [], _, _ => []
  | u :: rest, oid, nu =>
    if u.oid = oid then nu :: rest else u :: replaceFirstCred rest oid nu

/-- Remove the first credential whose identifier is `oid`. -/
def removeFirstCred : List Cred → Nat → List Cred
  | [], _ => []
  | u :: rest, oid =>
    if u.oid = oid then rest else u :: removeFirstCred rest oid

/-- `update_credential` of `models.py`: malformed id gives `false`;
the `$set` payload carries `username` and `role`, plus a re-hashed
`password_hash` when the optional password is truthy (neither `None` nor
empty); `modified_count > 0` is whether the credential changed. -/
def update_credential (cs : CredState) (user_id username : String)
    (password : Option String) (role : String) : Bool × CredState :=
  match parseObjectId user_id with
  | none => (false, cs)
  | some oid =>
    match cs.users.find? (fun u => u.oid == oid) with
    | none => (false, cs)
    | some u =>
      let u' : Cred :=
        { u with
          username := username
          role := role
          password_hash :=
            match password with
            | some p => if p = "" then u.password_hash else generate_password_hash p
            | none => u.password_hash }
      (decide (u' ≠ u), { cs with users := replaceFirstCred cs.users oid u' })

/-- `delete_credential` of `models.py`: malformed id gives `false`;
otherwise `delete_one({"_id": oid})` and `deleted_count > 0`. -/
def delete_credential (cs : CredState) (user_id : String) : Bool × CredState :=
  match parseObjectId user_id with
  | none => (false, cs)
  | some oid =>
    if cs.users.any (fun u => u.oid == oid) then
      (true, { cs with users := removeFirstCred cs.users oid })
    else (false, cs)

/-! ### Helper lemmas on the state model -/

theorem alookup_eq_none_of_not_mem {α : Type} (l : List (String × α)) (k : String)
    (h : k ∉ l.map Prod.fst) : alookup l k = none := by
  induction l with
  | nil => rfl
  | cons p rest ih =>
    obtain ⟨k', v'⟩ := p
    simp only [List.map_cons, List.mem_cons] at h
    push_neg at h
    simp [Ne.symm h.1, ih h.2]

theorem aupdate_eq_append {α : Type} (l : List (String × α)) (k : String) (v : α)
    (h : k ∉ l.map Prod.fst) : aupdate l k v = l ++ [(k, v)] := by
  induction l with
  | nil => rfl
  | cons p rest ih =>
    obtain ⟨k', v'⟩ := p
    simp only [List.map_cons, List.mem_cons] at h
    push_neg at h
    simp [aupdate, Ne.symm h.1, ih h.2]

theorem mem_map_fst_aupdate {α : Type} (l : List (String × α)) (k : String) (v : α) :
    k ∈ (aupdate l k v).map Prod.fst := by
  induction l with
  | nil => simp [aupdate]
  | cons p rest ih =>
    obtain ⟨k', v'⟩ := p
    by_cases h : k' = k <;> simp [aupdate, h, ih]

theorem not_mem_map_fst_aremove {α : Type} (l : List (String × α)) (k : String) :
    k ∉ (aremove l k).map Prod.fst := by
  intro hmem
  rcases List.mem_map.mp hmem with ⟨p, hp, hpk⟩
  rcases List.mem_filter.mp hp with ⟨-, hcond⟩
  rw [hpk] at hcond
  simp at hcond

theorem collDocs_setCollDocs_self (st : DBState) (db coll : String) (ds : List Doc) :
    collDocs (setCollDocs st db coll ds) db coll = ds := by
  simp [collDocs, setCollDocs, alookup_aupdate_self]

theorem collDocs_setCollDocs_other (st : DBState) (db coll db' coll' : String)
    (ds : List Doc) (h : ¬(db' = db ∧ coll' = coll)) :
    collDocs (setCollDocs st db coll ds) db' coll' = collDocs st db' coll' := by
  by_cases hdb : db' = db
  · subst hdb
    have hcoll : coll' ≠ coll := fun hc => h ⟨rfl, hc⟩
    simp [collDocs, setCollDocs, alookup_aupdate_self,
      alookup_aupdate_other _ coll coll' _ (Ne.symm hcoll)]
  · simp [collDocs, setCollDocs, alookup_aupdate_other _ db db' _ (Ne.symm hdb)]

theorem collDocs_nextOid_irrelevant (st : DBState) (k : Nat) (db coll : String) :
    collDocs { st with nextOid := k } db coll = collDocs st db coll := rfl

/-- `$set` leaves a field alone when the payload has no binding for it. -/
theorem docGet_applySet_of_none (data : Doc) :
    ∀ (d : Doc) (k : String), docGet data k = none →
      docGet (applySet d data) k = docGet d k := by
  induction data with
  | nil => intro d k _; rfl
  | cons kv rest ih =>
    intro d k hnone
    obtain ⟨k', v'⟩ := kv
    by_cases hk : k' = k
    · subst hk; simp [docGet, alookup] at hnone
    · simp only [docGet, alookup, hk, if_false] at hnone
      simp only [applySet, List.foldl_cons]
      rw [show (rest.foldl (fun acc kv => docSet acc kv.1 kv.2) (docSet d k' v')) =
            applySet (docSet d k' v') rest from rfl,
        ih (docSet d k' v') k hnone, docGet_docSet_other _ _ _ _ hk]

/-- `$set` stores the payload's binding of a field (payload keys unique, as
for a Python dict). -/
theorem docGet_applySet_of_some (data : Doc) :
    ∀ (d : Doc) (k : String) (v : BVal), (data.map Prod.fst).Nodup →
      docGet data k = some v → docGet (applySet d data) k = some v := by
  induction data with
  | nil => intro d k v _ h; cases h
  | cons kv rest ih =>
    intro d k v hnodup hsome
    obtain ⟨k', v'⟩ := kv
    simp only [List.map_cons, List.nodup_cons] at hnodup
    by_cases hk : k' = k
    · subst hk
      simp only [docGet, alookup, if_pos rfl] at hsome
      obtain rfl : v' = v := by injection hsome
      have hrest : docGet rest k' = none :=
        alookup_eq_none_of_not_mem rest k' hnodup.1
      simp only [applySet, List.foldl_cons]
      rw [show (rest.foldl (fun acc kv => docSet acc kv.1 kv.2) (docSet d k' v')) =
            applySet (docSet d k' v') rest from rfl,
        docGet_applySet_of_none rest _ _ hrest, docGet_docSet_self]
    · simp only [docGet, alookup, hk, if_false] at hsome
      simp only [applySet, List.foldl_cons]
      rw [show (rest.foldl (fun acc kv => docSet acc kv.1 kv.2) (docSet d k' v')) =
            applySet (docSet d k' v') rest from rfl,
        ih (docSet d k' v') k v hnodup.2 hsome]

/-- Replacing a matched document with one of the same identifier leaves the
sequence of identifiers unchanged. -/
theorem replaceFirstMatch_ids (docs : List Doc) (oid : Nat) (nd : Doc)
    (h : docGet nd "_id" = some (BVal.oid oid)) :
    (replaceFirstMatch docs oid nd).map (fun d => docGet d "_id") =
      docs.map (fun d => docGet d "_id") := by
  induction docs with
  | nil => rfl
  | cons d rest ih =>
    by_cases hid : docGet d "_id" = some (BVal.oid oid)
    · simp [replaceFirstMatch, hid, h]
    · simp [replaceFirstMatch, hid, ih]

theorem find_one_pred (docs : List Doc) (oid : Nat) (d : Doc)
    (h : find_one docs oid = some d) : docGet d "_id" = some (BVal.oid oid) := by
  have := List.find?_some h
  exact of_decide_eq_true this

theorem find_one_mem (docs : List Doc) (oid : Nat) (d : Doc)
    (h : find_one docs oid = some d) : d ∈ docs :=
  List.mem_of_find?_eq_some h

/-! ### Example states -/

/-- A store whose secure database holds the credential collection with one
admin document. -/
def secExample : DBState :=
  { dbs := [("secure_auth",
      [("users",
        [[("_id", BVal.oid 7),
          ("username", BVal.str "admin"),
          ("password_hash", BVal.str (generate_password_hash "admin123")),
          ("role", BVal.str "admin")]])])]
  , nextOid := 8 }

/-- A store with one application collection holding two documents. -/
def appExample : DBState :=
  { dbs := [("appdb",
      [("items",
        [[("_id", BVal.oid 0), ("a", BVal.int 1)],
         [("_id", BVal.oid 1), ("a", BVal.int 2)]])])]
  , nextOid := 2 }

/-- The credential store after bootstrap on an empty store. -/
def credExample : CredState := init_auth_collection { users := [], nextOid := 0 }

/-! ### The claims -/

/-- C1: the claim asserts `delete_collection(SECURE_DB_NAME, "users")`
returns false and leaves the collection in place even when called directly
on the core.  The code contradicts it: the core operation carries no guard
(only the routing layer's `delete_collection_view` checks), so on a store
where `secure_auth.users` exists the direct core call returns true and
drops the credential collection, while the same request through the
routing layer is refused. -/
theorem C1_core_guard_missing :
    (delete_collection secExample SECURE_DB_NAME "users").1 = true ∧
    "users" ∉ list_collection_names
      (delete_collection secExample SECURE_DB_NAME "users").2 "secure_auth" ∧
    delete_collection_view secExample SECURE_DB_NAME "users" = (false, secExample) := by
  exact ⟨rfl, by decide, by decide⟩

/-- C3: `delete_database` returns false and leaves the state untouched on
the three reserved infrastructure names and on the secure database name;
on every other name it returns true and the database is no longer among
the existing databases. -/
theorem C3_delete_database_policy (st : DBState) (db : String) :
    ((db ∈ reservedNames ∨ db = SECURE_DB_NAME) → delete_database st db = (false, st)) ∧
    (db ∉ reservedNames → db ≠ SECURE_DB_NAME →
      delete_database st db = (true, { st with dbs := aremove st.dbs db }) ∧
      db ∉ database_names (delete_database st db).2) := by
  constructor
  · rintro (h | h)
    · simp [delete_database, h]
    · subst h
      have hns : SECURE_DB_NAME ∉ reservedNames := by decide
      simp [delete_database, hns]
  · intro h1 h2
    refine ⟨by simp [delete_database, h1, h2], ?_⟩
    simp only [delete_database, h1, h2, if_false, database_names]
    exact not_mem_map_fst_aremove st.dbs db

/-- C3 witness: the policy evaluated on concrete stores. -/
theorem C3_witness :
    delete_database secExample "admin" = (false, secExample) ∧
    delete_database secExample "secure_auth" = (false, secExample) ∧
    delete_database appExample "appdb" =
      (true, { appExample with dbs := aremove appExample.dbs "appdb" }) := by
  refine ⟨(C3_delete_database_policy secExample "admin").1 (Or.inl (by decide)),
    (C3_delete_database_policy secExample "secure_auth").1 (Or.inr rfl),
    ((C3_delete_database_policy appExample "appdb").2 (by decide) (by decide)).1⟩

/-- C5: a caller-supplied id that does not parse as an `ObjectId` makes
`get_document` answer "not found" and makes `update_document`,
`delete_document`, `update_credential` and `delete_credential` answer
false, with no exception escaping and the store unchanged. -/
theorem C5_malformed_id_uniform (st : DBState) (cs : CredState)
    (db coll s username role : String) (pw : Option String) (data : Doc)
    (h : parseObjectId s = none) :
    get_document st db coll s = none ∧
    update_document st db coll s data = Except.ok (false, st) ∧
    delete_document st db coll s = (false, st) ∧
    update_credential cs s username pw role = (false, cs) ∧
    delete_credential cs s = (false, cs) := by
  refine ⟨?_, ?_, ?_, ?_, ?_⟩ <;>
    simp [get_document, update_document, delete_document, update_credential,
      delete_credential, h]

/-- C5 witness: the unparseable id "xyz" on concrete stores. -/
theorem C5_witness :
    get_document appExample "appdb" "items" "xyz" = none ∧
    update_document appExample "appdb" "items" "xyz" [("x", BVal.int 2)] =
      Except.ok (false, appExample) ∧
    delete_document appExample "appdb" "items" "xyz" = (false, appExample) ∧
    update_credential credExample "xyz" "admin" none "admin" = (false, credExample) ∧
    delete_credential credExample "xyz" = (false, credExample) :=
  C5_malformed_id_uniform appExample credExample "appdb" "items" "xyz" "admin" "admin"
    none [("x", BVal.int 2)] (by decide)

/-- C6: bootstrap inserts exactly the one default admin credential on an
empty store, is a no-op on any populated store, and applying it twice is
the same as applying it once. -/
theorem C6_bootstrap_idempotent (cs : CredState) :
    (cs.users = [] → (init_auth_collection cs).users =
      [{ oid := cs.nextOid
       , username := ADMIN_USERNAME
       , password_hash := generate_password_hash ADMIN_PASSWORD
       , role := "admin" }]) ∧
    (cs.users ≠ [] → init_auth_collection cs = cs) ∧
    init_auth_collection (init_auth_collection cs) = init_auth_collection cs := by
  refine ⟨?_, ?_, ?_⟩
  · intro h
    simp [init_auth_collection, h]
  · intro h
    simp [init_auth_collection, List.length_eq_zero, h]
  · by_cases h : cs.users = []
    · simp [init_auth_collection, h]
    · simp [init_auth_collection, List.length_eq_zero, h]

/-- C6 witness: bootstrap on the empty store, then again. -/
theorem C6_witness :
    (init_auth_collection { users := [], nextOid := 0 }).users =
      [{ oid := 0
       , username := ADMIN_USERNAME
       , password_hash := generate_password_hash ADMIN_PASSWORD
       , role := "admin" }] ∧
    init_auth_collection (init_auth_collection { users := [], nextOid := 0 }) =
      init_auth_collection { users := [], nextOid := 0 } :=
  ⟨(C6_bootstrap_idempotent { users := [], nextOid := 0 }).1 rfl,
   (C6_bootstrap_idempotent { users := [], nextOid := 0 }).2.2⟩

/-- C7: `verify_user` answers a bare false both when no stored credential
has the username and when one does but the password fails against its
hash; the two failures are the same value. -/
theorem C7_verify_uniform_failure (cs : CredState) (username password : String) :
    (cs.users.find? (fun u => u.username == username) = none →
      verify_user cs username password = false) ∧
    (∀ u, cs.users.find? (fun u => u.username == username) = some u →
      check_password_hash u.password_hash password = false →
      verify_user cs username password = false) := by
  constructor
  · intro h
    simp [verify_user, h]
  · intro u h hc
    simp [verify_user, h, hc]

/-- C7 witness: unknown user and wrong password on the bootstrapped store. -/
theorem C7_witness :
    verify_user credExample "nouser" "anything" = false ∧
    verify_user credExample "admin" "wrongpass" = false := by
  constructor
  · exact (C7_verify_uniform_failure credExample "nouser" "anything").1 (by decide)
  · exact (C7_verify_uniform_failure credExample "admin" "wrongpass").2
      { oid := 0, username := "admin"
      , password_hash := generate_password_hash "admin123", role := "admin" }
      (by decide) (by decide)

/-- C8: creating a collection that is not yet listed returns true, doing it
again returns false and leaves the state as after the first call, exactly
one collection of that name is listed afterwards, and the database now
exists (implicit creation). -/
theorem C8_create_collection_twice (st : DBState) (db coll : String)
    (h : coll ∉ list_collection_names st db) :
    (create_collection st db coll).1 = true ∧
    (create_collection (create_collection st db coll).2 db coll).1 = false ∧
    (create_collection (create_collection st db coll).2 db coll).2 =
      (create_collection st db coll).2 ∧
    (list_collection_names (create_collection st db coll).2 db).count coll = 1 ∧
    db ∈ database_names (create_collection st db coll).2 := by
  have hnames : list_collection_names (create_collection st db coll).2 db =
      list_collection_names st db ++ [coll] := by
    simp only [create_collection, h, if_false]
    simp only [list_collection_names, alookup_aupdate_self, Option.getD_some]
    rw [aupdate_eq_append _ _ _ h]
    simp
  have hmem : coll ∈ list_collection_names (create_collection st db coll).2 db := by
    rw [hnames]
    exact List.mem_append_right _ (List.mem_singleton.mpr rfl)
  set st1 := (create_collection st db coll).2 with hst1
  refine ⟨by simp [create_collection, h], ?_, ?_, ?_, ?_⟩
  · simp [create_collection, hmem]
  · simp [create_collection, hmem]
  · rw [hnames, List.count_append]
    rw [List.count_eq_zero.mpr h]
    simp
  · rw [hst1]
    simp only [create_collection, h, if_false, database_names]
    exact mem_map_fst_aupdate st.dbs db _

/-- C8 witness: creating "items" twice in a fresh store. -/
theorem C8_witness :
    (create_collection { dbs := [], nextOid := 0 } "newdb" "items").1 = true ∧
    (create_collection
      (create_collection { dbs := [], nextOid := 0 } "newdb" "items").2
      "newdb" "items").1 = false ∧
    (list_collection_names
      (create_collection { dbs := [], nextOid := 0 } "newdb" "items").2
      "newdb").count "items" = 1 ∧
    "newdb" ∈ database_names
      (create_collection { dbs := [], nextOid := 0 } "newdb" "items").2 := by
  obtain ⟨h1, h2, -, h4, h5⟩ :=
    C8_create_collection_twice { dbs := [], nextOid := 0 } "newdb" "items" (by decide)
  exact ⟨h1, h2, h4, h5⟩

/-- 25 numbered documents, the boundary scenario of the specification. -/
def docs25 : List Doc :=
  (List.range 25).map (fun i => [("_id", BVal.oid i), ("n", BVal.int i)])

/-- A store whose application collection holds 25 documents. -/
def pageExample : DBState :=
  { dbs := [("appdb", [("items", docs25)])], nextOid := 25 }

/-- C4: for `page ≥ 1` and `page_size ≥ 1`, pagination reports the full
count as `total`, returns at most `page_size` documents starting at offset
`(page-1)*page_size`, and `total_pages` is the ceiling of
`total / page_size` with a minimum of one. -/
theorem C4_paginate_spec (st : DBState) (db coll : String) (page page_size : Nat)
    (hpage : 1 ≤ page) (hps : 1 ≤ page_size) :
    (paginate_documents st db coll page page_size).total = (collDocs st db coll).length ∧
    (paginate_documents st db coll page page_size).documents =
      (((collDocs st db coll).drop ((page - 1) * page_size)).take page_size).map renderIdField ∧
    (paginate_documents st db coll page page_size).documents.length ≤ page_size ∧
    (paginate_documents st db coll page page_size).total_pages =
      max 1 (((collDocs st db coll).length + page_size - 1) / page_size) := by
  refine ⟨rfl, rfl, ?_, ?_⟩
  · simp only [paginate_documents, List.length_map, List.length_take]
    exact min_le_left _ _
  · simp only [paginate_documents]
    by_cases h0 : (collDocs st db coll).length > 0
    · rw [if_pos h0]
      have h1 : 1 ≤ ((collDocs st db coll).length + page_size - 1) / page_size := by
        rw [Nat.le_div_iff_mul_le hps]
        omega
      exact (max_eq_right h1).symm
    · rw [if_neg h0]
      have hz : (collDocs st db coll).length = 0 := by omega
      rw [hz]
      have hdiv : (0 + page_size - 1) / page_size = 0 := Nat.div_eq_of_lt (by omega)
      rw [hdiv]
      simp

/-- C4 witness: page 3 of the 25-document store at page size 10. -/
theorem C4_witness :
    (paginate_documents pageExample "appdb" "items" 3 10).total =
      (collDocs pageExample "appdb" "items").length ∧
    (paginate_documents pageExample "appdb" "items" 3 10).documents =
      (((collDocs pageExample "appdb" "items").drop ((3 - 1) * 10)).take 10).map renderIdField ∧
    (paginate_documents pageExample "appdb" "items" 3 10).documents.length ≤ 10 ∧
    (paginate_documents pageExample "appdb" "items" 3 10).total_pages =
      max 1 (((collDocs pageExample "appdb" "items").length + 10 - 1) / 10) :=
  C4_paginate_spec pageExample "appdb" "items" 3 10 (by decide) (by decide)

/-- The concrete boundary scenarios of the specification: the empty
collection, and the 25-document collection at page size 10. -/
theorem paginate_boundary_scenarios :
    (paginate_documents { dbs := [], nextOid := 0 } "db" "c" 1 10).total = 0 ∧
    (paginate_documents { dbs := [], nextOid := 0 } "db" "c" 1 10).total_pages = 1 ∧
    (paginate_documents { dbs := [], nextOid := 0 } "db" "c" 1 10).documents = [] ∧
    (paginate_documents pageExample "appdb" "items" 1 10).documents.length = 10 ∧
    (paginate_documents pageExample "appdb" "items" 2 10).documents.length = 10 ∧
    (paginate_documents pageExample "appdb" "items" 3 10).documents.length = 5 ∧
    (paginate_documents pageExample "appdb" "items" 4 10).documents.length = 0 ∧
    (paginate_documents pageExample "appdb" "items" 1 10).total_pages = 3 := by
  decide

/-- C2 counterexample: on a store holding a document with identifier 0, a
payload carrying a different `_id` is neither stripped nor ignored by
`update_document`: the store rejects the whole update (the `_id`-immutable
write error escapes the function), so the rest of the payload is not
applied either. -/
theorem C2_counterexample :
    update_document appExample "appdb" "items" (oidToString 0)
      [("_id", BVal.oid 5), ("x", BVal.int 2)] = Except.error () := rfl

/-- C2 amended: `update_document` itself does not strip identifier fields
(the routing layer deletes `_id` before calling it), and a payload `_id`
differing from the stored identifier makes the store reject the update;
nevertheless, whenever the call returns (payload keys unique, as for a
Python dict), every stored document's identifier is exactly what it was
before the call, in every database and collection. -/
theorem C2_update_preserves_identifiers (st : DBState) (db coll doc_id : String)
    (data : Doc) (b : Bool) (st' : DBState)
    (hkeys : (data.map Prod.fst).Nodup)
    (h : update_document st db coll doc_id data = Except.ok (b, st')) :
    ∀ db' coll', (collDocs st' db' coll').map (fun d => docGet d "_id") =
      (collDocs st db' coll').map (fun d => docGet d "_id") := by
  intro db' coll'
  cases hparse : parseObjectId doc_id with
  | none =>
    simp only [update_document, hparse, Except.ok.injEq, Prod.mk.injEq] at h
    rw [← h.2]
  | some oid =>
    cases hfind : find_one (collDocs st db coll) oid with
    | none =>
      simp only [update_document, hparse, hfind, Except.ok.injEq, Prod.mk.injEq] at h
      rw [← h.2]
    | some d =>
      have hdid : docGet d "_id" = some (BVal.oid oid) := find_one_pred _ _ _ hfind
      cases hid : docGet data "_id" with
      | none =>
        simp only [update_document, hparse, hfind, hid, Bool.false_eq_true, if_false,
          Except.ok.injEq, Prod.mk.injEq] at h
        rw [← h.2]
        by_cases htarget : db' = db ∧ coll' = coll
        · obtain ⟨rfl, rfl⟩ := htarget
          rw [collDocs_setCollDocs_self]
          refine replaceFirstMatch_ids _ _ _ ?_
          rw [docGet_applySet_of_none data d _ hid, hdid]
        · rw [collDocs_setCollDocs_other _ _ _ _ _ _ htarget]
      | some v =>
        by_cases hv : v = BVal.oid oid
        · have hconf : decide (v ≠ BVal.oid oid) = false := by simp [hv]
          simp only [update_document, hparse, hfind, hid, hconf, Bool.false_eq_true,
            if_false, Except.ok.injEq, Prod.mk.injEq] at h
          rw [← h.2]
          by_cases htarget : db' = db ∧ coll' = coll
          · obtain ⟨rfl, rfl⟩ := htarget
            rw [collDocs_setCollDocs_self]
            refine replaceFirstMatch_ids _ _ _ ?_
            rw [docGet_applySet_of_some data d _ v hkeys hid, hv]
          · rw [collDocs_setCollDocs_other _ _ _ _ _ _ htarget]
        · have hconf : decide (v ≠ BVal.oid oid) = true := by simp [hv]
          simp only [update_document, hparse, hfind, hid, hconf, if_true] at h
          cases h

/-- The state after the C2 witness update. -/
def c2Result : DBState :=
  { dbs := [("appdb",
      [("items",
        [[("_id", BVal.oid 0), ("a", BVal.int 1), ("x", BVal.int 2)],
         [("_id", BVal.oid 1), ("a", BVal.int 2)]])])]
  , nextOid := 2 }

/-- C2 witness: a successful update that adds a field leaves the sequence
of stored identifiers unchanged. -/
theorem C2_witness :
    (collDocs c2Result "appdb" "items").map (fun d => docGet d "_id") =
      (collDocs appExample "appdb" "items").map (fun d => docGet d "_id") :=
  C2_update_preserves_identifiers appExample "appdb" "items" (oidToString 0)
    [("x", BVal.int 2)] true c2Result (by decide) rfl "appdb" "items"

theorem find_one_append_fresh (docs : List Doc) (nd : Doc) (n : Nat)
    (hfresh : ∀ d ∈ docs, docGet d "_id" ≠ some (BVal.oid n))
    (hnd : docGet nd "_id" = some (BVal.oid n)) :
    find_one (docs ++ [nd]) n = some nd := by
  induction docs with
  | nil =>
    simp [find_one, List.find?, hnd]
  | cons d rest ih =>
    have hd : docGet d "_id" ≠ some (BVal.oid n) := hfresh d (List.mem_cons_self d rest)
    have hdec : decide (docGet d "_id" = some (BVal.oid n)) = false := by
      simpa using hd
    simp only [find_one, List.cons_append, List.find?_cons, hdec]
    exact ih (fun x hx => hfresh x (List.mem_cons_of_mem d hx))

/-- C9: inserting a payload without an identifier field returns the string
rendering of the freshly generated identifier, and getting that id back
returns the payload plus the identifier (as a string). -/
theorem C9_insert_get_roundtrip (st : DBState) (db coll : String) (data : Doc)
    (hnoid : docGet data "_id" = none)
    (hbound : st.nextOid < 16 ^ 24)
    (hfresh : ∀ d ∈ collDocs st db coll, docGet d "_id" ≠ some (BVal.oid st.nextOid)) :
    ∃ st' : DBState,
      insert_document st db coll data = Except.ok (oidToString st.nextOid, st') ∧
      get_document st' db coll (oidToString st.nextOid) =
        some (docSet data "_id" (BVal.str (oidToString st.nextOid))) := by
  have hany : (collDocs st db coll).any
      (fun d => decide (docGet d "_id" = some (BVal.oid st.nextOid))) = false := by
    rw [List.any_eq_false]
    intro d hd
    simpa using hfresh d hd
  refine ⟨{ setCollDocs st db coll
      (collDocs st db coll ++ [docSet data "_id" (BVal.oid st.nextOid)]) with
      nextOid := st.nextOid + 1 }, ?_, ?_⟩
  · simp [insert_document, hnoid, hany]
  · have hparse := parseObjectId_oidToString st.nextOid hbound
    have hnd_id : docGet (docSet data "_id" (BVal.oid st.nextOid)) "_id" =
        some (BVal.oid st.nextOid) := docGet_docSet_self _ _ _
    have hcoll : collDocs
        { setCollDocs st db coll
            (collDocs st db coll ++ [docSet data "_id" (BVal.oid st.nextOid)]) with
          nextOid := st.nextOid + 1 } db coll =
        collDocs st db coll ++ [docSet data "_id" (BVal.oid st.nextOid)] := by
      rw [collDocs_nextOid_irrelevant, collDocs_setCollDocs_self]
    have hfound := find_one_append_fresh (collDocs st db coll)
      (docSet data "_id" (BVal.oid st.nextOid)) st.nextOid hfresh hnd_id
    simp only [get_document, hparse, hcoll, hfound]
    rw [renderIdField, hnd_id]
    simp only [Option.getD_some, bvalToString]
    rw [docSet_docSet_same]

/-- C9 witness: inserting `{"a": 1}` into the empty store and reading it
back. -/
theorem C9_witness :
    ∃ st', insert_document { dbs := [], nextOid := 0 } "appdb" "items"
        [("a", BVal.int 1)] = Except.ok (oidToString 0, st') ∧
      get_document st' "appdb" "items" (oidToString 0) =
        some (docSet [("a", BVal.int 1)] "_id" (BVal.str (oidToString 0))) :=
  C9_insert_get_roundtrip { dbs := [], nextOid := 0 } "appdb" "items"
    [("a", BVal.int 1)] rfl (by norm_num) (by simp [collDocs, alookup])

/-- C10: every document crossing the interface carries its identifier as a
string: paginated documents and got documents are stored documents with
the `_id` value replaced by its string rendering, and the insert result is
the string rendering of the stored identifier value. -/
theorem C10_ids_cross_as_strings (st : DBState) (db coll doc_id : String)
    (page page_size : Nat) (data : Doc) :
    (∀ d ∈ (paginate_documents st db coll page page_size).documents,
      ∃ d0 ∈ collDocs st db coll, d = renderIdField d0) ∧
    (∀ d, get_document st db coll doc_id = some d →
      ∃ d0 ∈ collDocs st db coll, d = renderIdField d0) ∧
    (∀ s st', insert_document st db coll data = Except.ok (s, st') →
      ∃ d v, collDocs st' db coll = collDocs st db coll ++ [d] ∧
        docGet d "_id" = some v ∧ s = bvalToString v) ∧
    (∀ d0 : Doc, docGet (renderIdField d0) "_id" =
      some (BVal.str (bvalToString ((docGet d0 "_id").getD BVal.null)))) := by
  refine ⟨?_, ?_, ?_, ?_⟩
  · intro d hd
    simp only [paginate_documents, List.mem_map] at hd
    obtain ⟨d0, hd0, rfl⟩ := hd
    exact ⟨d0, List.drop_subset _ _ (List.take_subset _ _ hd0), rfl⟩
  · intro d hget
    cases hparse : parseObjectId doc_id with
    | none => simp [get_document, hparse] at hget
    | some oid =>
      cases hfind : find_one (collDocs st db coll) oid with
      | none => simp [get_document, hparse, hfind] at hget
      | some d1 =>
        simp only [get_document, hparse, hfind, Option.some.injEq] at hget
        exact ⟨d1, find_one_mem _ _ _ hfind, hget.symm⟩
  · intro s st' hins
    cases hid : docGet data "_id" with
    | some v =>
      simp only [insert_document, hid] at hins
      by_cases hdup : (collDocs st db coll).any
          (fun d => decide (docGet d "_id" = some v)) = true
      · rw [if_pos hdup] at hins; cases hins
      · rw [if_neg hdup] at hins
        simp only [Except.ok.injEq, Prod.mk.injEq] at hins
        refine ⟨data, v, ?_, hid, hins.1.symm⟩
        rw [← hins.2, collDocs_setCollDocs_self]
    | none =>
      simp only [insert_document, hid] at hins
      by_cases hdup : (collDocs st db coll).any
          (fun d => decide (docGet d "_id" = some (BVal.oid st.nextOid))) = true
      · rw [if_pos hdup] at hins; cases hins
      · rw [if_neg hdup] at hins
        simp only [Except.ok.injEq, Prod.mk.injEq] at hins
        refine ⟨docSet data "_id" (BVal.oid st.nextOid), BVal.oid st.nextOid, ?_,
          docGet_docSet_self _ _ _, hins.1.symm⟩
        rw [← hins.2, collDocs_nextOid_irrelevant, collDocs_setCollDocs_self]
  · intro d0
    exact docGet_docSet_self _ _ _

/-- The state after the C10 witness insert. -/
def c10InsResult : DBState :=
  { dbs := [("appdb",
      [("items",
        [[("_id", BVal.oid 0), ("a", BVal.int 1)],
         [("_id", BVal.oid 1), ("a", BVal.int 2)],
         [("b", BVal.int 3), ("_id", BVal.oid 2)]])])]
  , nextOid := 3 }

/-- C10 witness: a stored document read back through `get_document` is a
stored document with its `_id` rendered as a string, and a concrete insert
returns the string rendering of the identifier of the document it stored. -/
theorem C10_witness :
    (∃ d0 ∈ collDocs appExample "appdb" "items",
      [("_id", BVal.str "000000000000000000000001"), ("a", BVal.int 2)] =
        renderIdField d0) ∧
    (∃ d v, collDocs c10InsResult "appdb" "items" =
        collDocs appExample "appdb" "items" ++ [d] ∧
      docGet d "_id" = some v ∧ "000000000000000000000002" = bvalToString v) :=
  ⟨(C10_ids_cross_as_strings appExample "appdb" "items" (oidToString 1) 1 10
      [("b", BVal.int 3)]).2.1
    [("_id", BVal.str "000000000000000000000001"), ("a", BVal.int 2)] (by decide),
   (C10_ids_cross_as_strings appExample "appdb" "items" (oidToString 1) 1 10
      [("b", BVal.int 3)]).2.2.1
    "000000000000000000000002" c10InsResult rfl⟩

end CentralDB
